import Mathlib

/-!
Verification of the `mbucket raw` and `mbucket info` commands of node-manta
(`src/lib/mbucket/do_raw.js`, `src/lib/mbucket/do_info.js`) against their
natural-language specification.

The JavaScript code is shallowly embedded: the event-driven callback chain
(sign → open request → result event → data/end events) is linearised into a
pure function from the command inputs and the outcomes of the external
collaborators (url parser, signer, transport) to a final command outcome plus
an ordered trace of observable events (console output, signing, dispatch,
request-body writes, response-body reads).
-/

set_option autoImplicit false

namespace NodeManta

/-! ## JavaScript value helpers -/

/-- Truthiness of a JS string-or-undefined value (`undefined`, `null` and the
empty string are falsy). -/
def jsTruthy : Option String → Bool
  | none => false
  | some s => !(s == "")

/-- Whitespace characters recognised by JS `String.prototype.trimLeft`. -/
def isJsWhitespace (c : Char) : Bool :=
  c == ' ' || c == '\t' || c == '\n' || c == '\r' ||
  c.toNat == 0x0B || c.toNat == 0x0C || c.toNat == 0xA0 ||
  c.toNat == 0x1680 || c.toNat == 0x2028 || c.toNat == 0x2029 ||
  c.toNat == 0xFEFF

/-- JS `s.trimLeft()`: drop leading whitespace. -/
def jsTrimLeft (s : String) : String :=
  ⟨s.toList.dropWhile isJsWhitespace⟩

/-! ## JSON values and `JSON.stringify`

`restify-clients` parses an error response body into a JS value; when the
command re-serialises it, it calls `JSON.stringify`, which produces compact
JSON text. JS numbers are modelled as integers (no claim depends on float
formatting). -/

inductive JsonVal where
  | null
  | bool (b : Bool)
  | num (n : Int)
  | str (s : String)
  | arr (elems : List JsonVal)
  | obj (fields : List (String × JsonVal))

/-- Hexadecimal digit for `\uXXXX` escapes. -/
def hexDigit (n : Nat) : Char :=
  if n < 10 then Char.ofNat (48 + n) else Char.ofNat (87 + n)

/-- JSON escaping of a single character, as `JSON.stringify` does. -/
def escChar (c : Char) : String :=
  if c == '"' then "\\\""
  else if c == '\\' then "\\\\"
  else if c == '\n' then "\\n"
  else if c == '\t' then "\\t"
  else if c == '\r' then "\\r"
  else if c.toNat == 8 then "\\b"
  else if c.toNat == 12 then "\\f"
  else if c.toNat < 0x20 then
    "\\u00" ++ String.singleton (hexDigit (c.toNat / 16)) ++
      String.singleton (hexDigit (c.toNat % 16))
  else String.singleton c

/-- A JSON string literal: quoted, with characters escaped. -/
def jsonEscape (s : String) : String :=
  "\"" ++ String.join (s.toList.map escChar) ++ "\""

mutual

/-- Compact serialisation of a JSON value, as JS `JSON.stringify` produces
(no spaces between tokens). -/
def jsonStringify : JsonVal → String
  | .null => "null"
  | .bool b => if b then "true" else "false"
  | .num n => toString n
  | .str s => jsonEscape s
  | .arr elems => "[" ++ jsonStringifyArr elems ++ "]"
  | .obj fields => "\x7b" ++ jsonStringifyObj fields ++ "\x7d"

/-- Comma-separated serialisation of JSON array elements. -/
def jsonStringifyArr : List JsonVal → String
  | [] => ""
  | [x] => jsonStringify x
  | x :: y :: rest => jsonStringify x ++ "," ++ jsonStringifyArr (y :: rest)

/-- Comma-separated serialisation of JSON object fields. -/
def jsonStringifyObj : List (String × JsonVal) → String
  | [] => ""
  | [(k, v)] => jsonEscape k ++ ":" ++ jsonStringify v
  | (k, v) :: kv :: rest =>
      jsonEscape k ++ ":" ++ jsonStringify v ++ "," ++ jsonStringifyObj (kv :: rest)

end

/-! ## UTF-8 decoding

`do_raw` writes each response-body chunk with `chunk.toString('utf8')`: the
raw bytes are decoded as UTF-8 (invalid sequences become U+FFFD replacement
characters, as Node's decoder does). Bytes are modelled as `Nat` values
below 256. -/

/-- The U+FFFD replacement character. -/
def replChar : Char := Char.ofNat 0xFFFD

/-- Whether a byte is a UTF-8 continuation byte (`10xxxxxx`). -/
def isCont (b : Nat) : Bool := 0x80 ≤ b && b < 0xC0

/-- Valid second bytes of a three-byte sequence (rules out overlong forms and
surrogates, as WHATWG/Node decoding does). -/
def cont2ok (b b1 : Nat) : Bool :=
  if b == 0xE0 then 0xA0 ≤ b1 && b1 < 0xC0
  else if b == 0xED then 0x80 ≤ b1 && b1 < 0xA0
  else isCont b1

/-- Valid second bytes of a four-byte sequence (rules out overlong forms and
values beyond U+10FFFF). -/
def cont3ok (b b1 : Nat) : Bool :=
  if b == 0xF0 then 0x90 ≤ b1 && b1 < 0xC0
  else if b == 0xF4 then 0x80 ≤ b1 && b1 < 0x90
  else isCont b1

/-- Decode a UTF-8 byte sequence to characters, replacing invalid sequences
with U+FFFD. -/
def utf8DecodeList : List Nat → List Char
  | [] => []
  | b :: rest =>
    if b < 0x80 then Char.ofNat b :: utf8DecodeList rest
    else if b < 0xC2 then replChar :: utf8DecodeList rest
    else if b < 0xE0 then
      match rest with
      | [] => [replChar]
      | b1 :: rest1 =>
        if isCont b1 then
          Char.ofNat ((b - 0xC0) * 64 + (b1 - 0x80)) :: utf8DecodeList rest1
        else replChar :: utf8DecodeList (b1 :: rest1)
    else if b < 0xF0 then
      match rest with
      | [] => [replChar]
      | b1 :: rest1 =>
        if cont2ok b b1 then
          match rest1 with
          | [] => [replChar]
          | b2 :: rest2 =>
            if isCont b2 then
              Char.ofNat ((b - 0xE0) * 4096 + (b1 - 0x80) * 64 + (b2 - 0x80)) ::
                utf8DecodeList rest2
            else replChar :: utf8DecodeList (b2 :: rest2)
        else replChar :: utf8DecodeList (b1 :: rest1)
    else if b < 0xF5 then
      match rest with
      | [] => [replChar]
      | b1 :: rest1 =>
        if cont3ok b b1 then
          match rest1 with
          | [] => [replChar]
          | b2 :: rest2 =>
            if isCont b2 then
              match rest2 with
              | [] => [replChar]
              | b3 :: rest3 =>
                if isCont b3 then
                  Char.ofNat ((b - 0xF0) * 262144 + (b1 - 0x80) * 4096 +
                      (b2 - 0x80) * 64 + (b3 - 0x80)) :: utf8DecodeList rest3
                else replChar :: utf8DecodeList (b3 :: rest3)
            else replChar :: utf8DecodeList (b2 :: rest2)
        else replChar :: utf8DecodeList (b1 :: rest1)
    else replChar :: utf8DecodeList rest

/-- Decode a UTF-8 byte sequence into a string (JS `buf.toString('utf8')`). -/
def utf8Decode (bs : List Nat) : String := ⟨utf8DecodeList bs⟩

/-! ## Observable events

`do_raw` is observed through its console output (`console.log` emits a line,
`process.stdout.write` emits raw text — both go to the primary output
stream), its calls into the collaborators (signing, opening the HTTP
request), its writes of the request body, and its reads of response-body
chunks. -/

/-- One piece of primary-stream output: a `console.log` line or a raw
`process.stdout.write`. -/
inductive Out where
  | log (s : String)
  | write (s : String)
deriving DecidableEq, Repr

/-- An observable event of a `do_raw` run, in temporal order. -/
inductive Ev where
  | out (o : Out)
  | signCalled
  | dispatchCalled (method : String) (path : String) (headers : List (String × String))
  | reqWrite (data : String)
  | reqEnd
  | bodyDataRead (chunk : List Nat)
  | resEnd
deriving DecidableEq, Repr

/-- Errors with which the command can fail (the argument carries the message
or offending input). `invalidTarget` is the `AssertionError` thrown by the
`assert.ok` host/port guards; the spec calls it `InvalidTargetError`. -/
inductive CmdErr where
  | usageError (msg : String)
  | unknownMethod (method : String)
  | invalidTarget (msg : String)
  | malformedHeader (raw : String)
  | signingError (msg : String)
  | requestError (msg : String)
deriving DecidableEq, Repr

/-- Final outcome of a command: help text shown, callback invoked with an
error, or callback invoked with no error (success). -/
inductive Outcome where
  | helpShown
  | err (e : CmdErr)
  | ok
deriving DecidableEq, Repr

/-- Process exit code resulting from an outcome: `cmdln` exits 0 when the
callback reports no error and non-zero when it reports one. -/
def exitCodeOf : Outcome → Nat
  | .helpShown => 0
  | .err _ => 1
  | .ok => 0

/-! ## Command inputs -/

/-- Parsed CLI flags of `mbucket raw` (`do_raw.options`). `include_` stands
for the `--include` flag (`include` is a reserved word in Lean). -/
structure RawOpts where
  help : Bool
  verbose : Bool
  method : Option String
  header : List String
  include_ : Bool
  data : Option String

/-- Result of Node's `url.parse` on the positional PATH argument, as consumed
by `do_raw` (only these four fields are read). -/
structure ParsedUrl where
  host : Option String
  port : Option String
  pathname : String
  search : Option String

/-- HTTP response head as delivered by the transport's `result` event. -/
structure Response where
  httpVersion : String
  statusCode : Nat
  headers : List (String × String)

/-- Pre-read error body attached to `resErr` by the transport for statuses
≥ 400: either already parsed to a structured JS value (`typeof === 'object'`)
or raw text. -/
inductive ErrBody where
  | structured (j : JsonVal)
  | raw (s : String)

/-- JS truthiness of the `resErr.body` value (`null` and `''` are falsy). -/
def ErrBody.jsTruthy : ErrBody → Bool
  | .structured .null => false
  | .structured _ => true
  | .raw s => !(s == "")

/-- The `resErr` argument of the `result` event: set by the transport for
HTTP statuses ≥ 400, possibly carrying a pre-read body. -/
structure ResErr where
  body : Option ErrBody

/-- Outcomes of the external collaborators for one `do_raw` invocation:
the url parser, the client's logical-to-physical path mapping, the signer,
the request opening, and the response (head, optional error, body chunks
as byte sequences). -/
structure RawEnv where
  urlParse : String → ParsedUrl
  clientPath : String → String
  signErr : Option String
  reqErr : Option String
  resErr : Option ResErr
  res : Response
  chunks : List (List Nat)

/-! ## Request building -/

/-- Method resolution (`do_raw` lines 39–46): an explicit (truthy) `--method`
wins; otherwise PUT when `--data` is truthy, else GET. -/
def resolveMethod (opts : RawOpts) : String :=
  if jsTruthy opts.method then opts.method.getD ""
  else if jsTruthy opts.data then "PUT" else "GET"

/-- The `methodFunc` lookup table (`do_raw` lines 47–54): maps the six
supported verbs to restify client method names. -/
def methodFuncOf : String → Option String
  | "GET" => some "get"
  | "PUT" => some "put"
  | "POST" => some "post"
  | "HEAD" => some "head"
  | "OPTIONS" => some "opts"
  | "DELETE" => some "del"
  | _ => none

/-- Index of the first occurrence of a character (JS `String.prototype.indexOf`,
with `none` for −1). -/
def strIndexOf : List Char → Char → Option Nat
  | [], _ => none
  | c :: rest, t => if c = t then some 0 else (strIndexOf rest t).map (· + 1)

/-- Parse one `--header` flag value (`do_raw` lines 74–82): split at the
first colon; the name is everything before it, the value everything after it
with leading whitespace trimmed. `none` when there is no colon. -/
def parseHeader (raw : String) : Option (String × String) :=
  match strIndexOf raw.toList ':' with
  | none => none
  | some j => some (⟨raw.toList.take j⟩, jsTrimLeft ⟨raw.toList.drop (j + 1)⟩)

/-- JS object property assignment `m[k] = v` on a string-keyed object
modelled as an insertion-ordered association list: an existing key keeps its
position and gets the new value, a new key is appended. -/
def jsObjSet (m : List (String × String)) (k v : String) : List (String × String) :=
  if m.any (fun kv => kv.1 == k) then
    m.map (fun kv => if kv.1 == k then (kv.1, v) else kv)
  else m ++ [(k, v)]

/-- The `--header` processing loop (`do_raw` lines 72–84): fold the flag
values into the `reqOpts.headers` object, failing on the first value without
a colon. -/
def addHeaders : List String → List (String × String) → Except CmdErr (List (String × String))
  | [], acc => .ok acc
  | raw :: rest, acc =>
    match parseHeader raw with
    | none => .error (.malformedHeader raw)
    | some kv => addHeaders rest (jsObjSet acc kv.1 kv.2)

/-- The physical request path (`do_raw` lines 61–67): the client's path
mapping applied to the parsed pathname, with the query string appended
verbatim when present. -/
def buildPath (env : RawEnv) (args : List String) : String :=
  let parsed := env.urlParse (args.headD "")
  let p := env.clientPath parsed.pathname
  if jsTruthy parsed.search then p ++ parsed.search.getD "" else p

/-! ## Tracing -/

/-- Node's `http.STATUS_CODES` table (external `http` module), restricted to
the common statuses; `do_raw` only interpolates the result into the response
status line. -/
def STATUS_CODES : Nat → Option String
  | 100 => some "Continue"
  | 101 => some "Switching Protocols"
  | 200 => some "OK"
  | 201 => some "Created"
  | 202 => some "Accepted"
  | 204 => some "No Content"
  | 206 => some "Partial Content"
  | 301 => some "Moved Permanently"
  | 302 => some "Found"
  | 304 => some "Not Modified"
  | 307 => some "Temporary Redirect"
  | 308 => some "Permanent Redirect"
  | 400 => some "Bad Request"
  | 401 => some "Unauthorized"
  | 403 => some "Forbidden"
  | 404 => some "Not Found"
  | 405 => some "Method Not Allowed"
  | 408 => some "Request Timeout"
  | 409 => some "Conflict"
  | 410 => some "Gone"
  | 412 => some "Precondition Failed"
  | 413 => some "Payload Too Large"
  | 416 => some "Range Not Satisfiable"
  | 429 => some "Too Many Requests"
  | 500 => some "Internal Server Error"
  | 501 => some "Not Implemented"
  | 502 => some "Bad Gateway"
  | 503 => some "Service Unavailable"
  | 504 => some "Gateway Timeout"
  | _ => none

/-- The response status trace line
(`util.format('HTTP/%s %d %s', httpVersion, statusCode, STATUS_CODES[statusCode])`;
`util.format` renders a missing table entry as `undefined`). -/
def statusLine (res : Response) : String :=
  "HTTP/" ++ res.httpVersion ++ " " ++ toString res.statusCode ++ " " ++
    ((STATUS_CODES res.statusCode).getD "undefined")

/-- The rendered response trace: status line, one line per response header,
then a blank line (`do_raw` lines 122–129). -/
def resTraceLines (res : Response) : List String :=
  statusLine res :: (res.headers.map (fun kv => kv.1 ++ ": " ++ kv.2) ++ [""])

/-- `writeResLine` (`do_raw` lines 86–94): a rendered response-trace line is
printed with a `< ` prefix when `--verbose`, and plainly when `--include` or
the method is HEAD; otherwise it produces no output. -/
def writeResLine (opts : RawOpts) (method : String) (line : String) : List Out :=
  (if opts.verbose then [Out.log ("< " ++ line)] else []) ++
  (if opts.include_ || method == "HEAD" then [Out.log line] else [])

/-- All primary-stream output produced by tracing the response head. -/
def resTraceOut (opts : RawOpts) (method : String) (res : Response) : List Out :=
  (resTraceLines res).flatMap (writeResLine opts method)

/-- The verbose request trace (`do_raw` lines 110–116): request line, one
line per request header in insertion order, then a bare `>`. -/
def reqTraceOut (opts : RawOpts) (method p : String)
    (headers : List (String × String)) : List Ev :=
  if opts.verbose then
    Ev.out (Out.log ("> " ++ method ++ " " ++ p ++ " HTTP/1.1")) ::
      (headers.map (fun kv => Ev.out (Out.log ("> " ++ kv.1 ++ ": " ++ kv.2))) ++
       [Ev.out (Out.log ">")])
  else []

/-- Sending the request body (`do_raw` lines 172–180): when `--data` is
truthy it is echoed line-by-line with a `> ` prefix under `--verbose` and
written to the request; then the request is ended. -/
def sendBodyEvs (opts : RawOpts) : List Ev :=
  (if jsTruthy opts.data then
    (if opts.verbose then
      ((opts.data.getD "").splitOn "\n").map (fun l => Ev.out (Out.log ("> " ++ l)))
     else []) ++ [Ev.reqWrite (opts.data.getD "")]
   else []) ++ [Ev.reqEnd]

/-- The single output event that prints a truthy pre-read error body
(`do_raw` lines 144–148): a structured body is re-serialised with
`JSON.stringify` and printed as a line; a raw body is written through
unchanged. -/
def bodyOutEv : ErrBody → Ev
  | .structured j => Ev.out (Out.log (jsonStringify j))
  | .raw s => Ev.out (Out.write s)

/-- The `result`-event handler (`do_raw` lines 118–170): trace the response
head, then short-circuit on HEAD, else print a truthy pre-read error body,
else stream the body chunks UTF-8-decoded to stdout and finish on `end`. -/
def handleResult (opts : RawOpts) (method : String) (resErr : Option ResErr)
    (res : Response) (chunks : List (List Nat)) : Outcome × List Ev :=
  let trace := (resTraceOut opts method res).map Ev.out
  if method == "HEAD" then (.ok, trace)
  else
    match resErr with
    | some re =>
      let bodyEvs :=
        match re.body with
        | some b => if b.jsTruthy then [bodyOutEv b] else []
        | none => []
      (.ok, trace ++ bodyEvs)
    | none =>
      (.ok, trace ++
        chunks.flatMap (fun c => [Ev.bodyDataRead c, Ev.out (Out.write (utf8Decode c))]) ++
        [Ev.resEnd])

/-! ## The `mbucket raw` command -/

/-- Shallow embedding of `do_raw` (`src/lib/mbucket/do_raw.js`): from the
parsed flags, positional arguments and collaborator outcomes to the final
outcome and the ordered event trace. -/
def do_raw (opts : RawOpts) (args : List String) (env : RawEnv) : Outcome × List Ev :=
  if opts.help then (.helpShown, [])
  else if args.length < 1 then (.err (.usageError "invalid arguments"), [])
  else
    let method := resolveMethod opts
    match methodFuncOf method with
    | none => (.err (.unknownMethod method), [])
    | some _methodFunc =>
      let parsed := env.urlParse (args.headD "")
      if jsTruthy parsed.host then
        (.err (.invalidTarget ("given PATH should not have a host: " ++ parsed.host.getD "")), [])
      else if jsTruthy parsed.port then
        (.err (.invalidTarget ("given PATH should not have a port: " ++ parsed.port.getD "")), [])
      else
        match addHeaders opts.header [] with
        | .error e => (.err e, [])
        | .ok headers =>
          match env.signErr with
          | some se => (.err (.signingError se), [Ev.signCalled])
          | none =>
            match env.reqErr with
            | some re =>
              (.err (.requestError re),
               [Ev.signCalled, Ev.dispatchCalled method (buildPath env args) headers])
            | none =>
              let handled := handleResult opts method env.resErr env.res env.chunks
              (handled.1,
               Ev.signCalled :: Ev.dispatchCalled method (buildPath env args) headers ::
                 (reqTraceOut opts method (buildPath env args) headers ++
                  sendBodyEvs opts ++ handled.2))

/-! ## The `mbucket info` command -/

/-- Parsed CLI flags of `mbucket info` (`do_info.options`). -/
structure InfoOpts where
  help : Bool

/-- A parsed Manta storage URI (`MantaUri` from `lib/mantauri.js`): a bucket
name and an optional object name. -/
structure MantaUri where
  bucket : String
  object : Option String

/-- An observable event of a `do_info` run. -/
inductive InfoEv where
  | headBucketCalled (bucket : String)
  | headBucketObjectCalled (bucket object : String)
  | printedInfo (headers : List (String × String))
deriving DecidableEq, Repr

/-- Collaborator outcomes for one `do_info` invocation: the `MantaUri`
constructor (which throws on a malformed URI) and the two HEAD-request
client calls. -/
structure InfoEnv where
  parseMantaUri : String → Except String MantaUri
  headBucket : String → Except String Response
  headBucketObject : String → String → Except String Response

/-- Shallow embedding of `do_info` (`src/lib/mbucket/do_info.js`): parse the
single URI argument, issue a HEAD request against the bucket or the object
endpoint depending on whether the URI names an object, and print the
returned headers on success. -/
def do_info (opts : InfoOpts) (args : List String) (env : InfoEnv) :
    Outcome × List InfoEv :=
  if opts.help then (.helpShown, [])
  else if args.length ≠ 1 then (.err (.usageError "incorrect number of args"), [])
  else
    match env.parseMantaUri (args.headD "") with
    | .error msg => (.err (.usageError msg), [])
    | .ok muri =>
      if !(jsTruthy muri.object) then
        match env.headBucket muri.bucket with
        | .error e => (.err (.requestError e), [.headBucketCalled muri.bucket])
        | .ok res =>
          (.ok, [.headBucketCalled muri.bucket, .printedInfo res.headers])
      else
        match env.headBucketObject muri.bucket (muri.object.getD "") with
        | .error e =>
          (.err (.requestError e),
           [.headBucketObjectCalled muri.bucket (muri.object.getD "")])
        | .ok res =>
          (.ok, [.headBucketObjectCalled muri.bucket (muri.object.getD ""),
                 .printedInfo res.headers])

/-! ## Derived observations -/

/-- The primary-stream output events of an event trace. -/
def outsOf (evs : List Ev) : List Out :=
  evs.filterMap (fun e => match e with | .out o => some o | _ => none)

/-- Text contributed to the primary stream by one output event
(`console.log` appends a newline; `process.stdout.write` does not). -/
def outText : Out → String
  | .log s => s ++ "\n"
  | .write s => s

/-- The full primary-stream text of an event trace. -/
def primaryOutput (evs : List Ev) : String :=
  String.join ((outsOf evs).map outText)

/-- Whether an event reads or writes a response body. -/
def isBodyEv : Ev → Bool
  | .bodyDataRead _ => true
  | .out (.write _) => true
  | _ => false

/-! ## Association-list facts used for duplicate-header analysis -/

/-- Value of the last pair with the given key, if any. -/
def lastVal : List (String × String) → String → Option String
  | [], _ => none
  | kv :: rest, k =>
    match lastVal rest k with
    | some v => some v
    | none => if kv.1 = k then some kv.2 else none

/-- First-occurrence deduplication of a key list, relative to keys already
seen. -/
def ddup (seen : List String) : List String → List String
  | [] => []
  | k :: ks => if k ∈ seen then ddup seen ks else k :: ddup (k :: seen) ks

/-- Fold a list of parsed header pairs into a JS object via `jsObjSet`. -/
def applyAll (acc : List (String × String)) : List (String × String) → List (String × String)
  | [] => acc
  | kv :: rest => applyAll (jsObjSet acc kv.1 kv.2) rest

/-- First value for a key in an association list (JS property read). -/
def lookupVal : List (String × String) → String → Option String
  | [], _ => none
  | kv :: rest, k => if kv.1 = k then some kv.2 else lookupVal rest k

/-! ## Concrete inputs used by counterexamples and witnesses -/

/-- `mbucket raw` invoked with no flags at all. -/
def rawNoFlags : RawOpts := ⟨false, false, none, [], false, none⟩

/-- A plain 200 response with one header. -/
def plainRes : Response := ⟨"1.1", 200, [("content-type", "application/json")]⟩

/-- A benign environment: target parses to a bare path, signing and request
opening succeed, the response is 200 with an empty body. -/
def plainEnv : RawEnv :=
  ⟨fun _ => ⟨none, none, "/buckets", none⟩, fun s => s, none, none, none, plainRes, []⟩

/-- Environment delivering a 404 whose error body was pre-read and parsed to
the structured value `\x7b"code":"NotFound"\x7d`. -/
def notFoundEnv : RawEnv :=
  ⟨fun _ => ⟨none, none, "/buckets/x", none⟩, fun s => s, none, none,
   some ⟨some (.structured (.obj [("code", .str "NotFound")]))⟩, ⟨"1.1", 404, []⟩, []⟩

/-- Environment delivering a 200 whose body arrives as the two byte chunks
`foo` and `bar`. -/
def fooBarEnv : RawEnv :=
  ⟨fun _ => ⟨none, none, "/buckets", none⟩, fun s => s, none, none, none,
   ⟨"1.1", 200, []⟩, [[102, 111, 111], [98, 97, 114]]⟩

/-- `mbucket raw -X HEAD`. -/
def headOpts : RawOpts := ⟨false, false, some "HEAD", [], false, none⟩

/-- Environment for the HEAD witness: a 404 response that even carries a
pre-read error body and a stray chunk, none of which HEAD may consume. -/
def headEnv : RawEnv :=
  ⟨fun _ => ⟨none, none, "/b", none⟩, fun s => s, none, none,
   some ⟨some (.raw "should never be printed")⟩, ⟨"1.1", 404, [("x", "y")]⟩, [[120]]⟩

/-- `mbucket raw -X ''`: the `--method` flag given with an empty value. -/
def c4Opts : RawOpts := ⟨false, false, some "", [], false, none⟩

/-- Header flags with one well-formed and one colon-less value. -/
def c5Opts : RawOpts := ⟨false, false, none, ["A:b", "nocolon"], false, none⟩

/-- Environment whose target parse yields a host component (a fully
qualified URL was supplied). -/
def hostEnv : RawEnv :=
  ⟨fun _ => ⟨some "example.com", none, "/x", none⟩, fun s => s, none, none, none,
   ⟨"1.1", 200, []⟩, []⟩

/-- `mbucket raw -i` (include response headers, not verbose). -/
def includeOpts : RawOpts := ⟨false, false, none, [], true, none⟩

/-- Three `--header` flags, two of which use the same name. -/
def dupOpts : RawOpts :=
  ⟨false, false, none, ["x-a: 1", "x-b: 2", "x-a: 3"], false, none⟩

/-- Info-mode environment: the URI parses to `mybucket`/`foo.txt` and the
object HEAD request returns one header. -/
def infoEnvW : InfoEnv :=
  ⟨fun _ => .ok ⟨"mybucket", some "foo.txt"⟩,
   fun _ => .error "unused",
   fun _ _ => .ok ⟨"1.1", 200, [("etag", "abc")]⟩⟩

/-! # Theorems -/

/-! ## General run shape -/

/-- When the command reaches the transport's `result` event (help not
requested, an argument given, a supported method, no host/port in the
target, well-formed headers, signing and request opening succeed), the run
is: sign, dispatch, optional verbose request trace, request-body send,
then the `result` handling. -/
theorem do_raw_run (opts : RawOpts) (args : List String) (env : RawEnv)
    (hs : List (String × String)) (mf : String)
    (hhelp : opts.help = false)
    (hargs : args.length ≠ 0)
    (hmf : methodFuncOf (resolveMethod opts) = some mf)
    (hhost : jsTruthy (env.urlParse (args.headD "")).host = false)
    (hport : jsTruthy (env.urlParse (args.headD "")).port = false)
    (hhdr : addHeaders opts.header [] = .ok hs)
    (hsign : env.signErr = none)
    (hreq : env.reqErr = none) :
    do_raw opts args env =
      ((handleResult opts (resolveMethod opts) env.resErr env.res env.chunks).1,
       Ev.signCalled ::
         Ev.dispatchCalled (resolveMethod opts) (buildPath env args) hs ::
         (reqTraceOut opts (resolveMethod opts) (buildPath env args) hs ++
          sendBodyEvs opts ++
          (handleResult opts (resolveMethod opts) env.resErr env.res env.chunks).2)) := by
  have h1 : ¬ args.length < 1 := by omega
  simp only [List.headD_eq_head?] at hhost hport
  simp [do_raw, hhelp, h1, hmf, hhost, hport, hhdr, hsign, hreq]

/-! ## Trace-shape lemmas -/

/-- Every output of the response trace is a `console.log` line. -/
theorem resTraceOut_log (opts : RawOpts) (m : String) (res : Response) :
    ∀ o ∈ resTraceOut opts m res, ∃ s, o = Out.log s := by
  intro o ho
  rw [resTraceOut, List.mem_flatMap] at ho
  obtain ⟨line, _, ho⟩ := ho
  rw [writeResLine, List.mem_append] at ho
  rcases ho with ho | ho
  · split at ho
    · rw [List.mem_singleton] at ho; exact ⟨_, ho⟩
    · exact absurd ho (List.not_mem_nil o)
  · split at ho
    · rw [List.mem_singleton] at ho; exact ⟨_, ho⟩
    · exact absurd ho (List.not_mem_nil o)

/-- The verbose request trace contains no body read or body write. -/
theorem reqTraceOut_no_body (opts : RawOpts) (m p : String)
    (hs : List (String × String)) :
    ∀ e ∈ reqTraceOut opts m p hs, isBodyEv e = false := by
  intro e he
  rw [reqTraceOut] at he
  split at he
  · rw [List.mem_cons] at he
    rcases he with rfl | he
    · rfl
    · rw [List.mem_append] at he
      rcases he with he | he
      · rw [List.mem_map] at he; obtain ⟨kv, _, rfl⟩ := he; rfl
      · rw [List.mem_singleton] at he; subst he; rfl
  · exact absurd he (List.not_mem_nil e)

/-- Sending the request body reads or writes no response body. -/
theorem sendBodyEvs_no_body (opts : RawOpts) :
    ∀ e ∈ sendBodyEvs opts, isBodyEv e = false := by
  intro e he
  rw [sendBodyEvs, List.mem_append] at he
  rcases he with he | he
  · split at he
    · rw [List.mem_append] at he
      rcases he with he | he
      · split at he
        · rw [List.mem_map] at he; obtain ⟨l, _, rfl⟩ := he; rfl
        · exact absurd he (List.not_mem_nil e)
      · rw [List.mem_singleton] at he; subst he; rfl
    · exact absurd he (List.not_mem_nil e)
  · rw [List.mem_singleton] at he; subst he; rfl

/-- The response trace produces output if and only if `--verbose` or
`--include` is set or the method is HEAD; with none of them the computed
trace is discarded. -/
theorem resTraceOut_ne_nil_iff (opts : RawOpts) (m : String) (res : Response) :
    resTraceOut opts m res ≠ [] ↔
      (opts.verbose = true ∨ opts.include_ = true ∨ m = "HEAD") := by
  rcases hv : opts.verbose <;> rcases hi : opts.include_ <;> rcases hh : m == "HEAD" <;>
    simp_all [resTraceOut, resTraceLines, writeResLine, List.flatMap]

/-- The `result` handling always begins with the response trace. -/
theorem handleResult_trace (opts : RawOpts) (m : String) (resErr : Option ResErr)
    (res : Response) (chunks : List (List Nat)) :
    ∃ post, (handleResult opts m resErr res chunks).2 =
      (resTraceOut opts m res).map Ev.out ++ post := by
  rw [handleResult.eq_def]
  rcases hh : (m == "HEAD")
  · simp only [hh, Bool.false_eq_true, if_false]
    rcases resErr with _ | re
    · exact ⟨_, by rw [List.append_assoc]⟩
    · exact ⟨_, rfl⟩
  · exact ⟨[], by simp [hh]⟩

/-! ## Claim theorems -/

/-- C1: in raw mode, for a response with status ≥ 400 carrying a (truthy)
pre-read error body, the engine prints the body to the primary output — a
structured body is re-serialised as compact JSON via `JSON.stringify` and
logged, a raw body is written through unchanged — as the single event after
the response trace, and the operation completes successfully with exit
code 0. (The concrete `\x7b"code":"NotFound"\x7d` instance is checked in the
witness.) -/
theorem c1_error_body_passthrough (opts : RawOpts) (args : List String) (env : RawEnv)
    (hs : List (String × String)) (mf : String) (b : ErrBody)
    (hhelp : opts.help = false)
    (hargs : args.length ≠ 0)
    (hmf : methodFuncOf (resolveMethod opts) = some mf)
    (hnh : resolveMethod opts ≠ "HEAD")
    (hhost : jsTruthy (env.urlParse (args.headD "")).host = false)
    (hport : jsTruthy (env.urlParse (args.headD "")).port = false)
    (hhdr : addHeaders opts.header [] = .ok hs)
    (hsign : env.signErr = none)
    (hreq : env.reqErr = none)
    (hstatus : 400 ≤ env.res.statusCode)
    (herr : env.resErr = some ⟨some b⟩)
    (hbody : b.jsTruthy = true) :
    do_raw opts args env =
      (.ok,
       Ev.signCalled ::
         Ev.dispatchCalled (resolveMethod opts) (buildPath env args) hs ::
         (reqTraceOut opts (resolveMethod opts) (buildPath env args) hs ++
          sendBodyEvs opts ++
          ((resTraceOut opts (resolveMethod opts) env.res).map Ev.out ++ [bodyOutEv b]))) ∧
    exitCodeOf (do_raw opts args env).1 = 0 := by
  have hrun := do_raw_run opts args env hs mf hhelp hargs hmf hhost hport hhdr hsign hreq
  have hh : (resolveMethod opts == "HEAD") = false := by
    rcases h : (resolveMethod opts == "HEAD")
    · rfl
    · exact absurd (by simpa using h) hnh
  have hres : handleResult opts (resolveMethod opts) env.resErr env.res env.chunks =
      (.ok, (resTraceOut opts (resolveMethod opts) env.res).map Ev.out ++ [bodyOutEv b]) := by
    rw [herr, handleResult.eq_def, hh]
    simp [hbody]
  rw [hres] at hrun
  exact ⟨hrun, by rw [hrun]; rfl⟩

/-- C2: in raw mode, for a success response (status < 400, method not HEAD)
whose body arrives as byte-chunk events, each chunk is read and then written
to the primary output UTF-8-decoded, exactly once per chunk and in arrival
order, and the run completes (successfully) only after the end-of-body
event. -/
theorem c2_stream_chunks (opts : RawOpts) (args : List String) (env : RawEnv)
    (hs : List (String × String)) (mf : String)
    (hhelp : opts.help = false)
    (hargs : args.length ≠ 0)
    (hmf : methodFuncOf (resolveMethod opts) = some mf)
    (hnh : resolveMethod opts ≠ "HEAD")
    (hhost : jsTruthy (env.urlParse (args.headD "")).host = false)
    (hport : jsTruthy (env.urlParse (args.headD "")).port = false)
    (hhdr : addHeaders opts.header [] = .ok hs)
    (hsign : env.signErr = none)
    (hreq : env.reqErr = none)
    (hstatus : env.res.statusCode < 400)
    (hres : env.resErr = none) :
    do_raw opts args env =
      (.ok,
       Ev.signCalled ::
         Ev.dispatchCalled (resolveMethod opts) (buildPath env args) hs ::
         (reqTraceOut opts (resolveMethod opts) (buildPath env args) hs ++
          sendBodyEvs opts ++
          ((resTraceOut opts (resolveMethod opts) env.res).map Ev.out ++
           env.chunks.flatMap
             (fun c => [Ev.bodyDataRead c, Ev.out (Out.write (utf8Decode c))]) ++
           [Ev.resEnd]))) := by
  have hrun := do_raw_run opts args env hs mf hhelp hargs hmf hhost hport hhdr hsign hreq
  have hh : (resolveMethod opts == "HEAD") = false := by
    rcases h : (resolveMethod opts == "HEAD")
    · rfl
    · exact absurd (by simpa using h) hnh
  have hhandle : handleResult opts (resolveMethod opts) env.resErr env.res env.chunks =
      (.ok, (resTraceOut opts (resolveMethod opts) env.res).map Ev.out ++
        env.chunks.flatMap
          (fun c => [Ev.bodyDataRead c, Ev.out (Out.write (utf8Decode c))]) ++
        [Ev.resEnd]) := by
    rw [hres, handleResult.eq_def, hh]
    simp
  rw [hhandle] at hrun
  exact hrun

/-- C3: in raw mode with resolved method HEAD, the run completes
successfully immediately after the header-trace decision — the event trace
ends with the response trace — and never reads or writes a response body,
for any response status. -/
theorem c3_head_short_circuit (opts : RawOpts) (args : List String) (env : RawEnv)
    (hs : List (String × String))
    (hhelp : opts.help = false)
    (hargs : args.length ≠ 0)
    (hmeth : resolveMethod opts = "HEAD")
    (hhost : jsTruthy (env.urlParse (args.headD "")).host = false)
    (hport : jsTruthy (env.urlParse (args.headD "")).port = false)
    (hhdr : addHeaders opts.header [] = .ok hs)
    (hsign : env.signErr = none)
    (hreq : env.reqErr = none) :
    (do_raw opts args env).1 = .ok ∧
    (do_raw opts args env).2 =
      Ev.signCalled ::
        Ev.dispatchCalled "HEAD" (buildPath env args) hs ::
        (reqTraceOut opts "HEAD" (buildPath env args) hs ++ sendBodyEvs opts ++
         (resTraceOut opts "HEAD" env.res).map Ev.out) ∧
    ∀ e ∈ (do_raw opts args env).2, isBodyEv e = false := by
  have hmf : methodFuncOf (resolveMethod opts) = some "head" := by rw [hmeth]; rfl
  have hrun := do_raw_run opts args env hs "head" hhelp hargs hmf hhost hport hhdr hsign hreq
  rw [hmeth] at hrun
  have hres : handleResult opts "HEAD" env.resErr env.res env.chunks =
      (.ok, (resTraceOut opts "HEAD" env.res).map Ev.out) := by
    rw [handleResult.eq_def]
    simp
  rw [hres] at hrun
  refine ⟨by rw [hrun], by rw [hrun], ?_⟩
  intro e he
  rw [hrun] at he
  simp only [List.mem_cons, List.mem_append] at he
  rcases he with rfl | rfl | ⟨(he | he) | he⟩
  · rfl
  · rfl
  · exact reqTraceOut_no_body opts "HEAD" (buildPath env args) hs e he
  · exact sendBodyEvs_no_body opts e he
  · rw [List.mem_map] at he
    obtain ⟨o, ho, rfl⟩ := he
    obtain ⟨s, rfl⟩ := resTraceOut_log opts "HEAD" env.res o ho
    rfl

/-- C7: whenever the run reaches the `result` event, its trace contains the
rendered response trace block right after the request-send events, and that
block produces output if and only if `--verbose` is set, or `--include` is
set, or the method is HEAD; with none of them the computed block is empty. -/
theorem c7_trace_visibility (opts : RawOpts) (args : List String) (env : RawEnv)
    (hs : List (String × String)) (mf : String)
    (hhelp : opts.help = false)
    (hargs : args.length ≠ 0)
    (hmf : methodFuncOf (resolveMethod opts) = some mf)
    (hhost : jsTruthy (env.urlParse (args.headD "")).host = false)
    (hport : jsTruthy (env.urlParse (args.headD "")).port = false)
    (hhdr : addHeaders opts.header [] = .ok hs)
    (hsign : env.signErr = none)
    (hreq : env.reqErr = none) :
    (∃ post, (do_raw opts args env).2 =
       Ev.signCalled ::
         Ev.dispatchCalled (resolveMethod opts) (buildPath env args) hs ::
         (reqTraceOut opts (resolveMethod opts) (buildPath env args) hs ++
          sendBodyEvs opts ++
          ((resTraceOut opts (resolveMethod opts) env.res).map Ev.out ++ post))) ∧
    (resTraceOut opts (resolveMethod opts) env.res ≠ [] ↔
       (opts.verbose = true ∨ opts.include_ = true ∨ resolveMethod opts = "HEAD")) := by
  have hrun := do_raw_run opts args env hs mf hhelp hargs hmf hhost hport hhdr hsign hreq
  constructor
  · obtain ⟨post, hp⟩ :=
      handleResult_trace opts (resolveMethod opts) env.resErr env.res env.chunks
    refine ⟨post, ?_⟩
    rw [hrun]
    simp only [hp]
  · exact resTraceOut_ne_nil_iff opts (resolveMethod opts) env.res

/-- C4 counterexample: with `--method` given as the empty string, the code
does not use the flag's value (`''`) as the resolved method and does not
fail with an unknown-method error — `if (!method)` treats `''` as absent, so
the method is inferred (GET here) and the request proceeds and succeeds. -/
theorem c4_counterexample :
    c4Opts.method = some "" ∧
    resolveMethod c4Opts ≠ "" ∧
    resolveMethod c4Opts = "GET" ∧
    (do_raw c4Opts ["/buckets"] plainEnv).1 = .ok := by
  exact ⟨rfl, by decide, rfl, rfl⟩

/-- C4 (amended): the resolved method is the `--method` value when that flag
is given with a non-empty value; when `--method` is absent or empty, it is
PUT if a non-empty `--data` is present and GET if `--data` is absent or
empty; and when the resolved method is not one of the six supported verbs
the run fails with an unknown-method error before any signing or dispatch
(its event trace is empty). -/
theorem c4_method_resolution (opts : RawOpts) (args : List String) (env : RawEnv) :
    (∀ m, opts.method = some m → m ≠ "" → resolveMethod opts = m) ∧
    ((opts.method = none ∨ opts.method = some "") →
       (∀ d, opts.data = some d → d ≠ "" → resolveMethod opts = "PUT") ∧
       ((opts.data = none ∨ opts.data = some "") → resolveMethod opts = "GET")) ∧
    (opts.help = false → args.length ≠ 0 → methodFuncOf (resolveMethod opts) = none →
       do_raw opts args env = (.err (.unknownMethod (resolveMethod opts)), [])) := by
  refine ⟨?_, ?_, ?_⟩
  · intro m hm hne
    simp [resolveMethod, jsTruthy, hm, hne]
  · intro hmabs
    have hmf : jsTruthy opts.method = false := by
      rcases hmabs with h | h <;> simp [h, jsTruthy]
    refine ⟨?_, ?_⟩
    · intro d hd hdne
      have hdt : jsTruthy opts.data = true := by simp [hd, jsTruthy, hdne]
      simp [resolveMethod, hmf, hdt]
    · intro hdabs
      have hdf : jsTruthy opts.data = false := by
        rcases hdabs with h | h <;> simp [h, jsTruthy]
      simp [resolveMethod, hmf, hdf]
  · intro hhelp hargs hnone
    have h1 : ¬ args.length < 1 := by omega
    simp [do_raw, hhelp, h1, hnone]

/-- A character does not occur in a list exactly when `strIndexOf` misses. -/
theorem strIndexOf_eq_none_iff (l : List Char) (t : Char) :
    strIndexOf l t = none ↔ t ∉ l := by
  induction l with
  | nil => simp [strIndexOf]
  | cons c rest ih =>
    rw [strIndexOf]
    by_cases h : c = t
    · simp [h]
    · simp only [if_neg h, Option.map_eq_none', ih, List.mem_cons]
      constructor
      · intro hn hm
        rcases hm with hm | hm
        · exact h hm.symm
        · exact hn hm
      · intro hn hm
        exact hn (Or.inr hm)

/-- `strIndexOf` finds the first occurrence: on `pre ++ t :: post` with `t`
not in `pre`, it returns `pre.length`. -/
theorem strIndexOf_first (pre post : List Char) (t : Char) (hpre : t ∉ pre) :
    strIndexOf (pre ++ t :: post) t = some pre.length := by
  induction pre with
  | nil => simp [strIndexOf]
  | cons c rest ih =>
    rw [List.cons_append, strIndexOf]
    have hc : c ≠ t := fun hc => hpre (hc ▸ List.mem_cons_self c rest)
    rw [if_neg hc, ih (fun hm => hpre (List.mem_cons_of_mem c hm))]
    rfl

/-- If some `--header` flag has no colon, processing the flags fails with a
malformed-header error (for the first such flag). -/
theorem addHeaders_malformed (hdrs : List String) (acc : List (String × String))
    (h : ∃ raw ∈ hdrs, parseHeader raw = none) :
    ∃ r, parseHeader r = none ∧
      addHeaders hdrs acc = .error (.malformedHeader r) := by
  induction hdrs generalizing acc with
  | nil => simp at h
  | cons raw rest ih =>
    cases hp : parseHeader raw with
    | none =>
      refine ⟨raw, hp, ?_⟩
      rw [addHeaders, hp]
    | some kv =>
      obtain ⟨r, hrmem, hrnone⟩ := h
      rw [List.mem_cons] at hrmem
      rcases hrmem with rfl | hrmem
      · rw [hp] at hrnone; cases hrnone
      · obtain ⟨r', h1, h2⟩ := ih (jsObjSet acc kv.1 kv.2) ⟨r, hrmem, hrnone⟩
        refine ⟨r', h1, ?_⟩
        rw [addHeaders, hp]
        exact h2

/-- C5: a `--header` value without a colon makes the whole invocation fail
with a malformed-header error before signing or dispatch (empty event
trace); a value with a colon parses to the name before the first colon and
the value after it with leading whitespace trimmed. -/
theorem c5_header_parsing (opts : RawOpts) (args : List String) (env : RawEnv)
    (mf : String) (raw : String)
    (hhelp : opts.help = false)
    (hargs : args.length ≠ 0)
    (hmf : methodFuncOf (resolveMethod opts) = some mf)
    (hhost : jsTruthy (env.urlParse (args.headD "")).host = false)
    (hport : jsTruthy (env.urlParse (args.headD "")).port = false)
    (hmem : raw ∈ opts.header) :
    (':' ∉ raw.toList →
       ∃ r, ':' ∉ r.toList ∧
         do_raw opts args env = (.err (.malformedHeader r), [])) ∧
    (∀ pre post, raw.toList = pre ++ ':' :: post → ':' ∉ pre →
       parseHeader raw = some (⟨pre⟩, jsTrimLeft ⟨post⟩)) := by
  constructor
  · intro hnc
    have hbad : ∃ r ∈ opts.header, parseHeader r = none :=
      ⟨raw, hmem, by
        rw [parseHeader, (strIndexOf_eq_none_iff raw.toList ':').mpr hnc]⟩
    obtain ⟨r, hrnone, herr⟩ := addHeaders_malformed opts.header [] hbad
    refine ⟨r, ?_, ?_⟩
    · rw [parseHeader] at hrnone
      rcases hidx : strIndexOf r.toList ':' with _ | j
      · exact (strIndexOf_eq_none_iff r.toList ':').mp hidx
      · rw [hidx] at hrnone; cases hrnone
    · have h1 : ¬ args.length < 1 := by omega
      simp only [List.headD_eq_head?] at hhost hport
      simp [do_raw, hhelp, h1, hmf, hhost, hport, herr]
  · intro pre post hsplit hpre
    have ht : (pre ++ ':' :: post).take pre.length = pre := List.take_left pre _
    have hd : (pre ++ ':' :: post).drop (pre.length + 1) = post := by
      have he : pre ++ ':' :: post = (pre ++ [':']) ++ post := by simp
      have hl : (pre ++ [':']).length = pre.length + 1 := by simp
      rw [he, ← hl, List.drop_left]
    have hred : parseHeader raw =
        some (⟨(pre ++ ':' :: post).take pre.length⟩,
              jsTrimLeft ⟨(pre ++ ':' :: post).drop (pre.length + 1)⟩) := by
      rw [parseHeader, hsplit, strIndexOf_first pre post ':' hpre]
    rw [hred, ht, hd]

/-- C6: when the parsed target carries a (truthy) host or port component, no
signing and no dispatch ever happens (the event trace is empty), and — as
soon as the resolved method is one of the supported verbs, so that method
validation does not fail first — the run fails with the invalid-target
error. -/
theorem c6_invalid_target (opts : RawOpts) (args : List String) (env : RawEnv)
    (hhelp : opts.help = false)
    (hargs : args.length ≠ 0)
    (h : jsTruthy (env.urlParse (args.headD "")).host = true ∨
         jsTruthy (env.urlParse (args.headD "")).port = true) :
    (do_raw opts args env).2 = [] ∧
    (∀ mf, methodFuncOf (resolveMethod opts) = some mf →
       ∃ msg, do_raw opts args env = (.err (.invalidTarget msg), [])) := by
  have h1 : ¬ args.length < 1 := by omega
  simp only [List.headD_eq_head?] at h
  cases hmf : methodFuncOf (resolveMethod opts) with
  | none =>
    refine ⟨by simp [do_raw, hhelp, h1, hmf], ?_⟩
    intro mf hmf'
    simp [hmf] at hmf'
  | some mf =>
    have hfull : ∃ msg, do_raw opts args env = (.err (.invalidTarget msg), []) := by
      rcases hhost : jsTruthy (env.urlParse (args.head?.getD "")).host
      · rcases h with h | h
        · rw [hhost] at h; cases h
        · refine ⟨"given PATH should not have a port: " ++
            (env.urlParse (args.head?.getD "")).port.getD "", ?_⟩
          simp [do_raw, hhelp, h1, hmf, hhost, h]
      · refine ⟨"given PATH should not have a host: " ++
          (env.urlParse (args.head?.getD "")).host.getD "", ?_⟩
        simp [do_raw, hhelp, h1, hmf, hhost]
    obtain ⟨msg, hm⟩ := hfull
    exact ⟨by rw [hm], fun _ _ => ⟨msg, hm⟩⟩

/-- C8 counterexample: `do_raw` only rejects fewer than one positional
argument (`args.length < 1`), not "not exactly one": with two positional
arguments there is no usage error — the run proceeds (and here succeeds),
so the claim's "fails for every count ≠ 1" is false. -/
theorem c8_counterexample :
    (["/buckets", "/other"] : List String).length ≠ 1 ∧
    (do_raw rawNoFlags ["/buckets", "/other"] plainEnv).1 = .ok ∧
    (do_raw rawNoFlags ["/buckets", "/other"] plainEnv).2 ≠ [] := by
  exact ⟨by decide, rfl, by decide⟩

/-- C8 (amended): with zero positional arguments raw mode fails with a
usage error, exits non-zero and attempts nothing (empty event trace); with
one or more arguments the run is identical to the run on the first argument
alone — extra positional arguments are silently ignored. -/
theorem c8_arg_count (opts : RawOpts) (args : List String) (env : RawEnv)
    (hhelp : opts.help = false) :
    (args.length = 0 →
       do_raw opts args env = (.err (.usageError "invalid arguments"), []) ∧
       exitCodeOf (do_raw opts args env).1 ≠ 0) ∧
    (args.length ≠ 0 → do_raw opts args env = do_raw opts [args.headD ""] env) := by
  constructor
  · intro h0
    have he : do_raw opts args env = (.err (.usageError "invalid arguments"), []) := by
      simp [do_raw, hhelp, h0]
    exact ⟨he, by rw [he]; decide⟩
  · intro hne
    cases args with
    | nil => simp at hne
    | cons a t => simp [do_raw, buildPath, hhelp]

/-- C9: in info mode with one argument whose URI parses, a HEAD request goes
to the object endpoint when the URI names an object and to the bucket
endpoint otherwise; on success the returned headers are printed and the
exit code is 0, on HEAD failure the error is propagated and the exit code
is non-zero. -/
theorem c9_info_dispatch (opts : InfoOpts) (args : List String) (env : InfoEnv)
    (muri : MantaUri)
    (hhelp : opts.help = false)
    (hargs : args.length = 1)
    (hparse : env.parseMantaUri (args.headD "") = .ok muri) :
    (jsTruthy muri.object = true →
       (∀ res, env.headBucketObject muri.bucket (muri.object.getD "") = .ok res →
          do_info opts args env =
            (.ok, [.headBucketObjectCalled muri.bucket (muri.object.getD ""),
                   .printedInfo res.headers]) ∧
          exitCodeOf (do_info opts args env).1 = 0) ∧
       (∀ e, env.headBucketObject muri.bucket (muri.object.getD "") = .error e →
          do_info opts args env =
            (.err (.requestError e),
             [.headBucketObjectCalled muri.bucket (muri.object.getD "")]) ∧
          exitCodeOf (do_info opts args env).1 ≠ 0)) ∧
    (jsTruthy muri.object = false →
       (∀ res, env.headBucket muri.bucket = .ok res →
          do_info opts args env =
            (.ok, [.headBucketCalled muri.bucket, .printedInfo res.headers]) ∧
          exitCodeOf (do_info opts args env).1 = 0) ∧
       (∀ e, env.headBucket muri.bucket = .error e →
          do_info opts args env =
            (.err (.requestError e), [.headBucketCalled muri.bucket]) ∧
          exitCodeOf (do_info opts args env).1 ≠ 0)) := by
  simp only [List.headD_eq_head?] at hparse
  constructor
  · intro hobj
    constructor
    · intro res hok
      have he : do_info opts args env =
          (.ok, [.headBucketObjectCalled muri.bucket (muri.object.getD ""),
                 .printedInfo res.headers]) := by
        simp [do_info, hhelp, hargs, hparse, hobj, hok]
      exact ⟨he, by rw [he]; rfl⟩
    · intro e herr
      have he : do_info opts args env =
          (.err (.requestError e),
           [.headBucketObjectCalled muri.bucket (muri.object.getD "")]) := by
        simp [do_info, hhelp, hargs, hparse, hobj, herr]
      exact ⟨he, by rw [he]; exact Nat.one_ne_zero⟩
  · intro hobj
    constructor
    · intro res hok
      have he : do_info opts args env =
          (.ok, [.headBucketCalled muri.bucket, .printedInfo res.headers]) := by
        simp [do_info, hhelp, hargs, hparse, hobj, hok]
      exact ⟨he, by rw [he]; rfl⟩
    · intro e herr
      have he : do_info opts args env =
          (.err (.requestError e), [.headBucketCalled muri.bucket]) := by
        simp [do_info, hhelp, hargs, hparse, hobj, herr]
      exact ⟨he, by rw [he]; exact Nat.one_ne_zero⟩

/-! ## Duplicate-header analysis (claim C10) -/

/-- The JS-object membership test of `jsObjSet` agrees with key-list
membership. -/
theorem jsObjSet_mem_keys (m : List (String × String)) (k : String) :
    (m.any (fun kv => kv.1 == k)) = true ↔ k ∈ m.map Prod.fst := by
  simp [List.any_eq_true, List.mem_map, beq_iff_eq]

/-- Assigning an existing key leaves the key sequence unchanged. -/
theorem jsObjSet_keys_of_mem (m : List (String × String)) (k v : String)
    (h : k ∈ m.map Prod.fst) :
    (jsObjSet m k v).map Prod.fst = m.map Prod.fst := by
  rw [jsObjSet, if_pos ((jsObjSet_mem_keys m k).mpr h), List.map_map]
  apply List.map_congr_left
  intro kv _
  by_cases hk : kv.1 = k <;> simp [hk]

/-- Assigning a new key appends it to the key sequence. -/
theorem jsObjSet_keys_of_not_mem (m : List (String × String)) (k v : String)
    (h : k ∉ m.map Prod.fst) :
    (jsObjSet m k v).map Prod.fst = m.map Prod.fst ++ [k] := by
  rw [jsObjSet, if_neg (fun ha => h ((jsObjSet_mem_keys m k).mp ha))]
  simp

/-- Updating an existing key makes lookup return the new value. -/
theorem lookupVal_update (m : List (String × String)) (k v : String)
    (h : k ∈ m.map Prod.fst) :
    lookupVal (m.map (fun kv => if kv.1 == k then (kv.1, v) else kv)) k = some v := by
  induction m with
  | nil => simp at h
  | cons kv rest ih =>
    rw [List.map_cons]
    by_cases hk : kv.1 = k
    · have hf : (if kv.1 == k then (kv.1, v) else kv) = (kv.1, v) :=
        if_pos (beq_iff_eq.mpr hk)
      rw [hf]
      simp only [lookupVal]
      rw [if_pos hk]
    · have hf : (if kv.1 == k then (kv.1, v) else kv) = kv :=
        if_neg (by simpa using hk)
      rw [hf]
      simp only [lookupVal]
      rw [if_neg hk]
      apply ih
      simp only [List.map_cons, List.mem_cons] at h
      rcases h with h | h
      · exact absurd h.symm hk
      · exact h

/-- Updating a key leaves lookups of other keys unchanged. -/
theorem lookupVal_update_ne (m : List (String × String)) (k v k' : String)
    (h : k' ≠ k) :
    lookupVal (m.map (fun kv => if kv.1 == k then (kv.1, v) else kv)) k' =
      lookupVal m k' := by
  induction m with
  | nil => rfl
  | cons kv rest ih =>
    rw [List.map_cons]
    by_cases hk : kv.1 = k
    · have hf : (if kv.1 == k then (kv.1, v) else kv) = (kv.1, v) :=
        if_pos (beq_iff_eq.mpr hk)
      have hne : kv.1 ≠ k' := fun he => h (he.symm.trans hk)
      rw [hf]
      simp only [lookupVal]
      rw [if_neg hne, if_neg hne]
      exact ih
    · have hf : (if kv.1 == k then (kv.1, v) else kv) = kv :=
        if_neg (by simpa using hk)
      rw [hf]
      simp only [lookupVal]
      by_cases hk' : kv.1 = k'
      · rw [if_pos hk', if_pos hk']
      · rw [if_neg hk', if_neg hk']
        exact ih

/-- Appending a fresh key makes its lookup return the appended value. -/
theorem lookupVal_append_not_mem (m : List (String × String)) (k v : String)
    (h : k ∉ m.map Prod.fst) :
    lookupVal (m ++ [(k, v)]) k = some v := by
  induction m with
  | nil => simp [lookupVal]
  | cons kv rest ih =>
    have hne : kv.1 ≠ k := fun e => h (by simp [← e])
    rw [List.cons_append]
    simp only [lookupVal]
    rw [if_neg hne]
    refine ih (fun hm => h ?_)
    rw [List.map_cons, List.mem_cons]
    exact Or.inr hm

/-- Appending a pair leaves lookups of other keys unchanged. -/
theorem lookupVal_append_ne (m : List (String × String)) (k v k' : String)
    (h : k' ≠ k) :
    lookupVal (m ++ [(k, v)]) k' = lookupVal m k' := by
  induction m with
  | nil =>
    rw [List.nil_append]
    simp only [lookupVal]
    rw [if_neg (Ne.symm h)]
  | cons kv rest ih =>
    rw [List.cons_append]
    simp only [lookupVal]
    by_cases hk : kv.1 = k'
    · rw [if_pos hk, if_pos hk]
    · rw [if_neg hk, if_neg hk]
      exact ih

/-- JS object assignment: reading the assigned key yields the new value. -/
theorem lookupVal_jsObjSet_self (m : List (String × String)) (k v : String) :
    lookupVal (jsObjSet m k v) k = some v := by
  rw [jsObjSet]
  split
  · rename_i hany
    exact lookupVal_update m k v ((jsObjSet_mem_keys m k).mp hany)
  · rename_i hany
    exact lookupVal_append_not_mem m k v
      (fun hm => hany ((jsObjSet_mem_keys m k).mpr hm))

/-- JS object assignment: reading any other key is unchanged. -/
theorem lookupVal_jsObjSet_ne (m : List (String × String)) (k v k' : String)
    (h : k' ≠ k) :
    lookupVal (jsObjSet m k v) k' = lookupVal m k' := by
  rw [jsObjSet]
  split
  · exact lookupVal_update_ne m k v k' h
  · exact lookupVal_append_ne m k v k' h

/-- Folding pairs into a JS object: lookup returns the value of the last
pair with that key, falling back to the initial object. -/
theorem applyAll_lookupVal (pairs acc : List (String × String)) (k : String) :
    lookupVal (applyAll acc pairs) k =
      match lastVal pairs k with
      | some v => some v
      | none => lookupVal acc k := by
  induction pairs generalizing acc with
  | nil => rw [applyAll, lastVal]
  | cons kv rest ih =>
    rw [applyAll, ih]
    cases hl : lastVal rest k with
    | some v => rw [lastVal, hl]
    | none =>
      rw [lastVal, hl]
      by_cases hk : kv.1 = k
      · rw [if_pos hk, ← hk, lookupVal_jsObjSet_self]
      · rw [if_neg hk, lookupVal_jsObjSet_ne acc kv.1 kv.2 k (Ne.symm hk)]

/-- First-occurrence deduplication only depends on which keys were seen, not
on their arrangement. -/
theorem ddup_congr (seen seen' : List String) (l : List String)
    (h : ∀ x, x ∈ seen ↔ x ∈ seen') : ddup seen l = ddup seen' l := by
  induction l generalizing seen seen' with
  | nil => rfl
  | cons k ks ih =>
    rw [ddup, ddup]
    by_cases hk : k ∈ seen
    · rw [if_pos hk, if_pos ((h k).mp hk)]
      exact ih seen seen' h
    · rw [if_neg hk, if_neg (fun hk' => hk ((h k).mpr hk'))]
      rw [ih (k :: seen) (k :: seen') (by intro x; simp [h x])]

/-- Folding pairs into a JS object appends exactly the keys not seen before,
in first-occurrence order. -/
theorem applyAll_keys (pairs acc : List (String × String)) :
    (applyAll acc pairs).map Prod.fst =
      acc.map Prod.fst ++ ddup (acc.map Prod.fst) (pairs.map Prod.fst) := by
  induction pairs generalizing acc with
  | nil => simp [applyAll, ddup]
  | cons kv rest ih =>
    rw [applyAll, ih, List.map_cons, ddup]
    by_cases hk : kv.1 ∈ acc.map Prod.fst
    · rw [if_pos hk, jsObjSet_keys_of_mem acc kv.1 kv.2 hk]
    · rw [if_neg hk, jsObjSet_keys_of_not_mem acc kv.1 kv.2 hk]
      rw [ddup_congr (acc.map Prod.fst ++ [kv.1]) (kv.1 :: acc.map Prod.fst)
        (rest.map Prod.fst) (by intro x; simp [or_comm])]
      simp

/-- Folding pairs into a JS object with duplicate-free keys keeps the keys
duplicate-free: each header name occurs at most once in the object. -/
theorem applyAll_nodup (pairs acc : List (String × String))
    (h : (acc.map Prod.fst).Nodup) :
    ((applyAll acc pairs).map Prod.fst).Nodup := by
  induction pairs generalizing acc with
  | nil => exact h
  | cons kv rest ih =>
    rw [applyAll]
    apply ih
    by_cases hk : kv.1 ∈ acc.map Prod.fst
    · rw [jsObjSet_keys_of_mem acc kv.1 kv.2 hk]
      exact h
    · rw [jsObjSet_keys_of_not_mem acc kv.1 kv.2 hk]
      simp [List.nodup_append, h, hk]

/-- A successful run of the `--header` loop is the `jsObjSet` fold of the
parsed pairs. -/
theorem addHeaders_ok_eq (hdrs : List String) (acc hs : List (String × String))
    (h : addHeaders hdrs acc = .ok hs) :
    hs = applyAll acc (hdrs.filterMap parseHeader) := by
  induction hdrs generalizing acc with
  | nil =>
    rw [addHeaders] at h
    cases h
    rfl
  | cons raw rest ih =>
    rw [addHeaders] at h
    cases hp : parseHeader raw with
    | none => rw [hp] at h; cases h
    | some kv =>
      rw [hp] at h
      rw [List.filterMap_cons, hp, applyAll]
      exact ih (jsObjSet acc kv.1 kv.2) h

/-- C10: when several well-formed `--header` flags share a name, the
dispatched request's header object has duplicate-free names, in
first-occurrence order, and each name maps to the value of the last flag
with that name; the dispatch event carries exactly this object. -/
theorem c10_duplicate_headers (opts : RawOpts) (args : List String) (env : RawEnv)
    (hs : List (String × String)) (mf : String)
    (hhelp : opts.help = false)
    (hargs : args.length ≠ 0)
    (hmf : methodFuncOf (resolveMethod opts) = some mf)
    (hhost : jsTruthy (env.urlParse (args.headD "")).host = false)
    (hport : jsTruthy (env.urlParse (args.headD "")).port = false)
    (hhdr : addHeaders opts.header [] = .ok hs)
    (hsign : env.signErr = none)
    (hreq : env.reqErr = none) :
    ((hs.map Prod.fst).Nodup) ∧
    (hs.map Prod.fst = ddup [] ((opts.header.filterMap parseHeader).map Prod.fst)) ∧
    (∀ k, lookupVal hs k = lastVal (opts.header.filterMap parseHeader) k) ∧
    Ev.dispatchCalled (resolveMethod opts) (buildPath env args) hs ∈
      (do_raw opts args env).2 := by
  have he := addHeaders_ok_eq opts.header [] hs hhdr
  refine ⟨?_, ?_, ?_, ?_⟩
  · rw [he]
    exact applyAll_nodup (opts.header.filterMap parseHeader) [] (by simp)
  · rw [he]
    have hk := applyAll_keys (opts.header.filterMap parseHeader) []
    simpa using hk
  · intro k
    rw [he, applyAll_lookupVal]
    cases hl : lastVal (opts.header.filterMap parseHeader) k
    · rfl
    · rfl
  · rw [do_raw_run opts args env hs mf hhelp hargs hmf hhost hport hhdr hsign hreq]
    simp

/-! ## Witnesses -/

/-- Witness for C1: a plain GET hitting a 404 whose pre-read body is the
structured value `\x7b"code":"NotFound"\x7d` prints exactly the line
`\x7b"code":"NotFound"\x7d` and exits 0. -/
theorem c1_witness :
    outsOf (do_raw rawNoFlags ["/buckets/x"] notFoundEnv).2 =
      [Out.log "\x7b\"code\":\"NotFound\"\x7d"] ∧
    (do_raw rawNoFlags ["/buckets/x"] notFoundEnv).1 = .ok ∧
    exitCodeOf (do_raw rawNoFlags ["/buckets/x"] notFoundEnv).1 = 0 := by
  have h := c1_error_body_passthrough rawNoFlags ["/buckets/x"] notFoundEnv [] "get"
    (.structured (.obj [("code", .str "NotFound")]))
    rfl (by decide) rfl (by decide) rfl rfl rfl rfl rfl (by decide) rfl rfl
  rw [h.1]
  refine ⟨?_, rfl, rfl⟩
  simp only [bodyOutEv, jsonStringify, jsonStringifyObj, jsonEscape, escChar]
  rfl

/-- Witness for C2: a 200 whose body arrives as chunks `foo` then `bar`
yields primary output exactly `foobar` and succeeds. -/
theorem c2_witness :
    primaryOutput (do_raw rawNoFlags ["/buckets"] fooBarEnv).2 = "foobar" ∧
    (do_raw rawNoFlags ["/buckets"] fooBarEnv).1 = .ok := by
  have h := c2_stream_chunks rawNoFlags ["/buckets"] fooBarEnv [] "get"
    rfl (by decide) rfl (by decide) rfl rfl rfl rfl rfl (by decide) rfl
  rw [h]
  exact ⟨by decide, rfl⟩

/-- Witness for C3: a HEAD against a 404 that even has a pre-read error body
and a stray chunk succeeds and produces no body read or write. -/
theorem c3_witness :
    (do_raw headOpts ["/b"] headEnv).1 = .ok ∧
    ((do_raw headOpts ["/b"] headEnv).2.all (fun e => !isBodyEv e)) = true := by
  have h := c3_head_short_circuit headOpts ["/b"] headEnv []
    rfl (by decide) rfl rfl rfl rfl rfl rfl
  refine ⟨h.1, ?_⟩
  rw [h.2.1]
  decide

/-- Witness for C4 (amended): an explicit `-X DELETE` wins; `--data` infers
PUT; no flags infer GET; an unsupported verb fails before any event. -/
theorem c4_witness :
    resolveMethod ⟨false, false, some "DELETE", [], false, none⟩ = "DELETE" ∧
    resolveMethod ⟨false, false, none, [], false, some "x"⟩ = "PUT" ∧
    resolveMethod rawNoFlags = "GET" ∧
    do_raw ⟨false, false, some "FROB", [], false, none⟩ ["/b"] plainEnv =
      (.err (.unknownMethod "FROB"), []) := by
  refine ⟨?_, ?_, ?_, ?_⟩
  · exact (c4_method_resolution ⟨false, false, some "DELETE", [], false, none⟩
      ["/b"] plainEnv).1 "DELETE" rfl (by decide)
  · exact (((c4_method_resolution ⟨false, false, none, [], false, some "x"⟩
      ["/b"] plainEnv).2.1 (Or.inl rfl)).1) "x" rfl (by decide)
  · exact (((c4_method_resolution rawNoFlags ["/b"] plainEnv).2.1
      (Or.inl rfl)).2) (Or.inl rfl)
  · exact (c4_method_resolution ⟨false, false, some "FROB", [], false, none⟩
      ["/b"] plainEnv).2.2 rfl (by decide) rfl

/-- Witness for C5: with header flags `A:b` and `nocolon`, the run fails
with a malformed-header error and an empty event trace, and `A:b` parses to
name `A`, value `b`. -/
theorem c5_witness :
    (∃ r, ':' ∉ r.toList ∧
       do_raw c5Opts ["/b"] plainEnv = (.err (.malformedHeader r), [])) ∧
    parseHeader "A:b" = some ("A", "b") := by
  have h := c5_header_parsing c5Opts ["/b"] plainEnv "get" "nocolon"
    rfl (by decide) rfl rfl rfl (by decide)
  have h2 := c5_header_parsing c5Opts ["/b"] plainEnv "get" "A:b"
    rfl (by decide) rfl rfl rfl (by decide)
  refine ⟨h.1 (by decide), ?_⟩
  have h3 := h2.2 ['A'] ['b'] rfl (by decide)
  rw [h3]
  rfl

/-- Witness for C6: a target parsing to host `example.com` produces an empty
event trace and the invalid-target failure. -/
theorem c6_witness :
    (do_raw rawNoFlags ["http://example.com/x"] hostEnv).2 = [] ∧
    (∃ msg, do_raw rawNoFlags ["http://example.com/x"] hostEnv =
       (.err (.invalidTarget msg), [])) := by
  have h := c6_invalid_target rawNoFlags ["http://example.com/x"] hostEnv
    rfl (by decide) (Or.inl rfl)
  exact ⟨h.1, h.2 "get" rfl⟩

/-- Witness for C7: `--include` without `--verbose` on a GET returning 200
still prints the response trace (the computed trace block is non-empty and
sits in the run's event list). -/
theorem c7_witness :
    (∃ post, (do_raw includeOpts ["/buckets"] plainEnv).2 =
       Ev.signCalled ::
         Ev.dispatchCalled (resolveMethod includeOpts)
           (buildPath plainEnv ["/buckets"]) [] ::
         (reqTraceOut includeOpts (resolveMethod includeOpts)
            (buildPath plainEnv ["/buckets"]) [] ++
          sendBodyEvs includeOpts ++
          ((resTraceOut includeOpts (resolveMethod includeOpts) plainEnv.res).map
             Ev.out ++ post))) ∧
    resTraceOut includeOpts (resolveMethod includeOpts) plainEnv.res ≠ [] := by
  have h := c7_trace_visibility includeOpts ["/buckets"] plainEnv [] "get"
    rfl (by decide) rfl rfl rfl rfl rfl rfl
  exact ⟨h.1, h.2.mpr (Or.inr (Or.inl rfl))⟩

/-- Witness for C8 (amended): zero arguments fail with the usage error and
exit non-zero; two arguments behave exactly like the first argument alone. -/
theorem c8_witness :
    do_raw rawNoFlags ([] : List String) plainEnv =
      (.err (.usageError "invalid arguments"), []) ∧
    do_raw rawNoFlags ["/buckets", "/extra"] plainEnv =
      do_raw rawNoFlags ["/buckets"] plainEnv := by
  have h0 := c8_arg_count rawNoFlags [] plainEnv rfl
  have h2 := c8_arg_count rawNoFlags ["/buckets", "/extra"] plainEnv rfl
  exact ⟨(h0.1 rfl).1, h2.2 (by decide)⟩

/-- Witness for C9: `info` on a URI naming object `foo.txt` in bucket
`mybucket` issues the object-endpoint HEAD, prints its headers and exits
zero. -/
theorem c9_witness :
    do_info ⟨false⟩ ["manta:mybucket/foo.txt"] infoEnvW =
      (.ok, [.headBucketObjectCalled "mybucket" "foo.txt",
             .printedInfo [("etag", "abc")]]) ∧
    exitCodeOf (do_info ⟨false⟩ ["manta:mybucket/foo.txt"] infoEnvW).1 = 0 := by
  have h := c9_info_dispatch ⟨false⟩ ["manta:mybucket/foo.txt"] infoEnvW
    ⟨"mybucket", some "foo.txt"⟩ rfl rfl rfl
  exact (h.1 rfl).1 ⟨"1.1", 200, [("etag", "abc")]⟩ rfl

/-- Witness for C10: flags `x-a: 1`, `x-b: 2`, `x-a: 3` dispatch the header
object `[x-a ↦ 3, x-b ↦ 2]`: one entry per name, first-occurrence order,
last value winning. -/
theorem c10_witness :
    ((([("x-a", "3"), ("x-b", "2")] : List (String × String)).map Prod.fst).Nodup) ∧
    lookupVal [("x-a", "3"), ("x-b", "2")] "x-a" =
      lastVal (dupOpts.header.filterMap parseHeader) "x-a" ∧
    lookupVal [("x-a", "3"), ("x-b", "2")] "x-a" = some "3" ∧
    Ev.dispatchCalled "GET" "/buckets" [("x-a", "3"), ("x-b", "2")] ∈
      (do_raw dupOpts ["/buckets"] plainEnv).2 := by
  have h := c10_duplicate_headers dupOpts ["/buckets"] plainEnv
    [("x-a", "3"), ("x-b", "2")] "get"
    rfl (by decide) rfl rfl rfl rfl rfl rfl
  exact ⟨h.1, h.2.2.1 "x-a", by decide, h.2.2.2⟩

end NodeManta
